import Mathlib

/-!
Verification of the shard-address allocation and distribution engine of the
Cloudflare-Random-Image repository (`src/gen.py`, `src/gen_image.py`).

The embedding below translates the Python source into Lean:

* `Item` models the scan's `item = {'path': file_path}` dictionaries.
* `pyHex w i` models the Python format expression `f"{i:0{w}x}"` (fixed-width
  lowercase hexadecimal, left-zero-padded).  Every call site in the source has
  `i < 16 ** w`, where the two renderings agree digit for digit.
* `cycleStep` / `fillBuckets` model `itertools.cycle` and the bucket-filling
  loop `for i in range(total_slots): buckets[i] = next(data_cycle)`.
* `calculate_hex_len` models the sizer; the source computes
  `math.ceil(math.log(item_count, 16))` with IEEE doubles, which is the exact
  ceiling logarithm `Nat.clog 16 item_count` for every count below `2 ^ 52`
  (the double-precision computation deviates at `16 ^ 13 + 1`, recorded with
  the results as a defect of the source, not reproduced by this exact model).
* `write_files` models gen.py's writer: its per-slot artifact, the
  "not found in all map" warnings, and the `generated_map` dictionary
  (modelled as `String → Option String` with the last-write-wins update
  semantics of a Python dict assignment).  The single Python loop both
  emits one artifact per slot and (in primary mode) assigns into the
  dictionary; the iterations are independent except for the dictionary,
  which no iteration reads, so the model computes the artifact list by `map`
  and the dictionary by `foldl` over the same assignment table.
* `write_files_sub` models gen_image.py's `write_files_prefix`
  (subdirectory mode; with `CONVERT_WEBP = True` every slot is written by
  `process_file`, a byte-owning conversion); its early `return` on an empty
  list is modelled as `none`.
* `scan_images` / `scan_images_img` model the two scanners, driven by an
  abstract listing of the source tree (`SourceFile`: traversal path, whether
  the suffix check admits it, and `Image.open`'s reported dimensions, `none`
  when opening raises).
* `mainRun` models gen.py's `main` up to the outputs of the three
  `write_files` calls, with `sys.exit(1)` modelled as `RunOutcome.fatal 1`.
-/

namespace CFRI

/-- An Item: an opaque reference to one scanned source image, identified by
its source path (the scanner builds `item = {'path': file_path}`). -/
structure Item where
  path : String
  deriving DecidableEq, Repr

/-- Default for out-of-range list reads; unreachable on the guarded paths. -/
def defaultItem : Item := ⟨""⟩

/-- gen.py's output suffix constant `FILE_EXT = ".webp"` (gen_image.py uses
the same suffix because `CONVERT_WEBP = True`). -/
def FILE_EXT : String := ".webp"

/-- Both scripts set `MIN_HEX_LEN = 1`. -/
def MIN_HEX_LEN : Nat := 1

/-- One lowercase hexadecimal digit character, as Python's `x` format code
renders it: `0`-`9` are code points 48+d, `a`-`f` are 87+d. -/
def hexChar (d : Nat) : Char :=
  if d < 10 then Char.ofNat (48 + d) else Char.ofNat (87 + d)

/-- The low `w` base-16 digits of `i`, most significant first.  For
`i < 16 ^ w` this is exactly the digit list of `f"{i:0{w}x}"`. -/
def hexDigitsFixed : Nat → Nat → List Char
  | 0, _ => []
  | w + 1, i => hexDigitsFixed w (i / 16) ++ [hexChar (i % 16)]

/-- Models the Python key rendering `f"{i:0{hex_len}x}"` for `i < 16 ^ w`
(every use in the source satisfies that bound): a fixed-width lowercase
hexadecimal string, left-zero-padded to exactly `w` digits. -/
def pyHex (w i : Nat) : String := ⟨hexDigitsFixed w i⟩

/-- Numeric value of a lowercase hex digit character (inverse of `hexChar`). -/
def hexCharVal (c : Char) : Nat :=
  if 97 ≤ c.toNat then c.toNat - 87 else c.toNat - 48

/-- Numeric value of a big-endian lowercase hex string. -/
def hexValue (s : String) : Nat :=
  s.data.foldl (fun acc c => 16 * acc + hexCharVal c) 0

/-- The sixteen characters Python's lowercase `x` format code can emit. -/
def hexAlphabet : List Char := "0123456789abcdef".data

/-- Models `calculate_hex_len(item_count, min_len)` (identical in both
scripts): `min_len` when the count is zero, otherwise
`max(min_len, math.ceil(math.log(item_count, 16)))`.  The ceiling logarithm
is modelled exactly as `Nat.clog 16`; the source's double-precision
evaluation agrees with it for every count below `2 ^ 52` and first deviates
at `16 ^ 13 + 1` (see the run results). -/
def calculate_hex_len (itemCount minLen : Nat) : Nat :=
  if itemCount = 0 then minLen else max minLen (Nat.clog 16 itemCount)

/-- One `next()` call on `itertools.cycle(orig)`: the iterator state is the
remaining tail of the current pass; an exhausted pass restarts from the
saved sequence.  `next()` on a cycle of an empty sequence raises
`StopIteration`, modelled as `none` (unreachable: the caller guards
against an empty list). -/
def cycleStep (orig rest : List Item) : Option (Item × List Item) :=
  match rest with
  | x :: xs => some (x, xs)
  | [] =>
    match orig with
    | x :: xs => some (x, xs)
    | [] => none

/-- Models the bucket-filling loop
`for i in range(total_slots): buckets[i] = next(data_cycle)`:
draws `k` items from `cycle(orig)` whose current state is `rest`. -/
def fillBuckets (orig : List Item) : Nat → List Item → List Item
  | 0, _ => []
  | k + 1, rest =>
    match cycleStep orig rest with
    | some (x, rest2) => x :: fillBuckets orig k rest2
    | none => []

/-- The fully filled bucket list: `cap` draws from a fresh `cycle(dataList)`. -/
def buckets (dataList : List Item) (cap : Nat) : List Item :=
  fillBuckets dataList cap dataList

/-- The assignment table realized by the writer loops of both scripts: slot
`i` of `range(16 ** hex_len)` is keyed by `f"{i:0{hex_len}x}"` and holds the
`i`-th draw from `cycle(data_list)`. -/
def distTable (dataList : List Item) (hexLen : Nat) : List (String × Item) :=
  (List.range (16 ^ hexLen)).map
    (fun i => (pyHex hexLen i, (buckets dataList (16 ^ hexLen)).getD i defaultItem))

/-- Python dict assignment `d[k] = v`, as it affects later lookups. -/
def dictSet (d : String → Option String) (k v : String) : String → Option String :=
  fun q => if q = k then some v else d q

/-- What one output file physically is. -/
inductive ArtifactKind where
  /-- `convert_and_save(source, target)` / `process_file`: the artifact owns
  its bytes, produced by converting the source image. -/
  | converted (source : Item)
  /-- `os.symlink`: an alias resolving to the primary artifact at `target`
  (the source stores the equivalent relative path). -/
  | symlink (target : String)
  /-- `shutil.copy2(target, link_name)`: a full byte copy of the primary
  artifact at `target`. -/
  | copied (target : String)
  deriving DecidableEq, Repr

/-- Models `create_symlink_or_copy(target, link_name)`: `os.symlink` when the
platform permits it, otherwise (`OSError`/`AttributeError`) a full byte
copy.  `symlinkOk` abstracts whether symlink creation succeeds. -/
def create_symlink_or_copy (symlinkOk : Bool) (target : String) (_linkName : String) :
    ArtifactKind :=
  if symlinkOk then ArtifactKind.symlink target else ArtifactKind.copied target

/-- Observable outcome of one `write_files` call of gen.py. -/
structure WriteResult where
  /-- Whether the call created / left behind the output subdirectory. -/
  dirCreated : Bool
  /-- Whether the `[Warning] No data for ...` message was printed. -/
  emptyWarning : Bool
  /-- The files written: target path paired with what was materialized. -/
  artifacts : List (String × ArtifactKind)
  /-- Items hitting the `Warning: ... not found in all map` branch, in slot
  order (each such slot also falls back to a direct conversion). -/
  missingWarnings : List Item
  /-- The returned `generated_map` dict: source path of an item to the path
  of a primary artifact written for it. -/
  generatedMap : String → Option String

/-- Models `write_files(data_list, output_subdir, hex_len, is_symlink_source,
source_map)` from src/gen.py.  The directory is created before the empty
check, so `dirCreated` is true on both branches; an empty list returns the
empty dict after a warning.  Otherwise every slot of the assignment table is
materialized: in primary mode a byte-owning conversion, recorded into
`generated_map` under the item's source path (later slots overwrite); in
alias mode a symlink-or-copy to the mapped primary path when the lookup
succeeds, else a warning plus direct conversion. -/
def write_files (dataList : List Item) (hexLen : Nat) (isSymlinkSource : Bool)
    (sourceMap : Option (String → Option String)) (symlinkOk : Bool) : WriteResult :=
  if dataList = [] then
    { dirCreated := true, emptyWarning := true, artifacts := [],
      missingWarnings := [], generatedMap := fun _ => none }
  else
    { dirCreated := true
      emptyWarning := false
      artifacts :=
        (distTable dataList hexLen).map (fun e =>
          (e.1 ++ FILE_EXT,
            if isSymlinkSource then ArtifactKind.converted e.2
            else
              match sourceMap with
              | some m =>
                match m e.2.path with
                | some real => create_symlink_or_copy symlinkOk real (e.1 ++ FILE_EXT)
                | none => ArtifactKind.converted e.2
              | none => ArtifactKind.converted e.2))
      missingWarnings :=
        if isSymlinkSource then []
        else
          (distTable dataList hexLen).filterMap (fun e =>
            match sourceMap with
            | some m =>
              match m e.2.path with
              | some _ => none
              | none => some e.2
            | none => some e.2)
      generatedMap :=
        if isSymlinkSource then
          (distTable dataList hexLen).foldl
            (fun m e => dictSet m e.2.path (e.1 ++ FILE_EXT)) (fun _ => none)
        else fun _ => none }

/-- Observable outcome of one subdirectory-mode write of gen_image.py. -/
structure SubdirResult where
  /-- `ensure_dir(target_dir)` ran. -/
  dirCreated : Bool
  /-- The files written, every one a byte-owning `process_file` output. -/
  artifacts : List (String × ArtifactKind)

/-- Models gen_image.py's subdirectory writer (source name
`write_files_prefix`): it returns before creating anything when the list is
empty (`none`); otherwise it creates the subdirectory and converts the
item of every slot of the assignment table into a byte-owning file
(`CONVERT_WEBP = True`, so the suffix is `.webp` and every slot goes through
the Pillow conversion). -/
def write_files_sub (dataList : List Item) (hexLen : Nat) : Option SubdirResult :=
  if dataList = [] then none
  else
    some
      { dirCreated := true
        artifacts :=
          (distTable dataList hexLen).map
            (fun e => (e.1 ++ FILE_EXT, ArtifactKind.converted e.2)) }

/-- One entry of the source directory traversal (`source_dir.rglob('*')`):
its path, whether it passes the `is_file` and suffix checks, and the
dimensions `(width, height)` that `Image.open` reports — `none` when
opening raises. -/
structure SourceFile where
  path : String
  isImage : Bool
  dims : Option (Nat × Nat)
  deriving DecidableEq, Repr

/-- The classification loop of gen.py's `scan_images`, in traversal order:
an admitted file becomes an item; a readable one is appended to the
landscape list when `width > height`, else to the portrait list; an
unreadable one is only warned about; the item joins the `all` list in every
admitted case.  Returns `(all, landscape, portrait)`. -/
def scanLoop : List SourceFile → List Item × List Item × List Item
  | [] => ([], [], [])
  | f :: rest =>
    let r := scanLoop rest
    if f.isImage then
      let item : Item := ⟨f.path⟩
      match f.dims with
      | some (w, h) =>
        if w > h then (item :: r.1, item :: r.2.1, r.2.2)
        else (item :: r.1, r.2.1, item :: r.2.2)
      | none => (item :: r.1, r.2.1, r.2.2)
    else r

/-- Models gen.py's `scan_images(source_dir)`: three empty lists when the
source root does not exist, otherwise the classification loop. -/
def scan_images (sourceExists : Bool) (files : List SourceFile) :
    List Item × List Item × List Item :=
  if sourceExists then scanLoop files else ([], [], [])

/-- The classification loop of gen_image.py's `scan_images`: with Pillow the
same dimension test, but an unreadable file is skipped entirely
(`continue`, so it joins no list); without Pillow every admitted file goes
to the landscape list. -/
def scanLoopImg (hasPillow : Bool) : List SourceFile → List Item × List Item × List Item
  | [] => ([], [], [])
  | f :: rest =>
    let r := scanLoopImg hasPillow rest
    if f.isImage then
      let item : Item := ⟨f.path⟩
      if hasPillow then
        match f.dims with
        | some (w, h) =>
          if w > h then (item :: r.1, item :: r.2.1, r.2.2)
          else (item :: r.1, r.2.1, item :: r.2.2)
        | none => r
      else (item :: r.1, item :: r.2.1, r.2.2)
    else r

/-- Models gen_image.py's `scan_images(source_dir)`. -/
def scan_images_img (hasPillow sourceExists : Bool) (files : List SourceFile) :
    List Item × List Item × List Item :=
  if sourceExists then scanLoopImg hasPillow files else ([], [], [])

/-- Outcome of gen.py's `main`: a fatal `sys.exit` code, or the results of
the primary run and the two category runs. -/
inductive RunOutcome where
  | fatal (exitCode : Nat)
  | completed (allRes lRes pRes : WriteResult)

/-- Models gen.py's `main()` through the three `write_files` calls: scan,
exit code 1 when no image was found, otherwise size the key space from the
`all` count, materialize `all` in primary mode, then the two category
partitions in alias mode against the returned `generated_map`. -/
def mainRun (sourceExists : Bool) (files : List SourceFile) (symlinkOk : Bool) :
    RunOutcome :=
  let s := scan_images sourceExists files
  if s.1.length = 0 then RunOutcome.fatal 1
  else
    let hexLen := calculate_hex_len s.1.length MIN_HEX_LEN
    let allRes := write_files s.1 hexLen true none symlinkOk
    let lRes := write_files s.2.1 hexLen false (some allRes.generatedMap) symlinkOk
    let pRes := write_files s.2.2 hexLen false (some allRes.generatedMap) symlinkOk
    RunOutcome.completed allRes lRes pRes

/-- The three-item collection of the spec's end-to-end example. -/
def sampleItems : List Item := [⟨"A"⟩, ⟨"B"⟩, ⟨"C"⟩]

/-- `16 ^ 13 + 1` pairwise distinct items (paths are 14-digit hex strings):
the collection size at which the source's double-precision sizer first
undersizes the key space. -/
def bigItems : List Item := (List.range (16 ^ 13 + 1)).map (fun i => ⟨pyHex 14 i⟩)

/-- The last of `bigItems`: the one item a key space of `16 ^ 13` addresses
cannot reach. -/
def lastBig : Item := ⟨pyHex 14 (16 ^ 13)⟩

/-! ### Helper lemmas: the hex key rendering -/

lemma hexDigitsFixed_length (w : Nat) : ∀ i, (hexDigitsFixed w i).length = w := by
  induction w with
  | zero => intro i; rfl
  | succ w ih => intro i; simp [hexDigitsFixed, ih]

lemma pyHex_length (w i : Nat) : (pyHex w i).length = w :=
  hexDigitsFixed_length w i

lemma hexChar_mem_alphabet : ∀ d < 16, hexChar d ∈ hexAlphabet := by decide

lemma hexCharVal_hexChar : ∀ d < 16, hexCharVal (hexChar d) = d := by decide

lemma hexDigitsFixed_mem_alphabet (w : Nat) :
    ∀ i, ∀ c ∈ hexDigitsFixed w i, c ∈ hexAlphabet := by
  induction w with
  | zero => intro i c hc; cases hc
  | succ w ih =>
    intro i c hc
    rw [hexDigitsFixed, List.mem_append] at hc
    rcases hc with hc | hc
    · exact ih _ c hc
    · rw [List.mem_singleton] at hc
      subst hc
      exact hexChar_mem_alphabet _ (Nat.mod_lt _ (by norm_num))

lemma hexValue_pyHex (w : Nat) : ∀ i, i < 16 ^ w → hexValue (pyHex w i) = i := by
  have main : ∀ w i, i < 16 ^ w →
      (hexDigitsFixed w i).foldl (fun acc c => 16 * acc + hexCharVal c) 0 = i := by
    intro w
    induction w with
    | zero =>
      intro i hi
      interval_cases i
      rfl
    | succ w ih =>
      intro i hi
      have hdiv : i / 16 < 16 ^ w := by
        rw [Nat.div_lt_iff_lt_mul (by norm_num : (0:Nat) < 16)]
        calc i < 16 ^ (w + 1) := hi
        _ = 16 ^ w * 16 := by rw [pow_succ]
      rw [hexDigitsFixed, List.foldl_append, ih _ hdiv]
      simp only [List.foldl_cons, List.foldl_nil]
      rw [hexCharVal_hexChar _ (Nat.mod_lt _ (by norm_num))]
      exact Nat.div_add_mod i 16
  exact main w

lemma pyHex_inj {w i j : Nat} (hi : i < 16 ^ w) (hj : j < 16 ^ w)
    (he : pyHex w i = pyHex w j) : i = j := by
  rw [← hexValue_pyHex w i hi, ← hexValue_pyHex w j hj, he]

/-! ### Helper lemmas: the cyclic distributor -/

lemma fillBuckets_cons (orig : List Item) (k : Nat) (a : Item) (l : List Item) :
    fillBuckets orig (k + 1) (a :: l) = a :: fillBuckets orig k l := rfl

lemma fillBuckets_restart (x : Item) (xs : List Item) (k : Nat) :
    fillBuckets (x :: xs) (k + 1) [] = x :: fillBuckets (x :: xs) k xs := rfl

lemma fillBuckets_drop (orig : List Item) (h : orig ≠ []) :
    ∀ (k j : Nat), j ≤ orig.length →
      fillBuckets orig k (orig.drop j) =
        (List.range k).map (fun i => orig.getD ((j + i) % orig.length) defaultItem) := by
  intro k
  induction k with
  | zero => intro j _; rfl
  | succ k ih =>
    intro j hj
    have hn : 0 < orig.length := List.length_pos.mpr h
    rcases Nat.lt_or_eq_of_le hj with hlt | heq
    · rw [List.drop_eq_getElem_cons hlt, fillBuckets_cons, ih (j + 1) hlt,
        List.range_succ_eq_map, List.map_cons, List.map_map]
      congr 1
      · rw [Nat.add_zero, Nat.mod_eq_of_lt hlt, List.getD_eq_getElem?_getD,
          List.getElem?_eq_getElem hlt]
        rfl
      · apply List.map_congr_left
        intro i _
        simp only [Function.comp_apply, Nat.succ_eq_add_one]
        have harg : j + 1 + i = j + (i + 1) := by omega
        rw [harg]
    · subst heq
      obtain ⟨x, xs, rfl⟩ := List.exists_cons_of_ne_nil h
      rw [List.drop_length, fillBuckets_restart]
      have h1 := ih 1 (by simp)
      simp only [List.drop_succ_cons, List.drop_zero] at h1
      rw [h1, List.range_succ_eq_map, List.map_cons, List.map_map]
      congr 1
      · simp [Nat.mod_self]
      · apply List.map_congr_left
        intro i _
        simp only [Function.comp_apply, Nat.succ_eq_add_one]
        rw [Nat.add_mod_left, Nat.add_comm 1 i]

lemma buckets_eq (dataList : List Item) (h : dataList ≠ []) (cap : Nat) :
    buckets dataList cap =
      (List.range cap).map (fun i => dataList.getD (i % dataList.length) defaultItem) := by
  have := fillBuckets_drop dataList h cap 0 (Nat.zero_le _)
  simpa [buckets] using this

lemma getD_map_range {α : Type} (g : Nat → α) (d : α) {i k : Nat} (h : i < k) :
    ((List.range k).map g).getD i d = g i := by
  rw [List.getD_eq_getElem?_getD, List.getElem?_map, List.getElem?_range h]
  rfl

lemma distTable_eq (dataList : List Item) (hexLen : Nat) (h : dataList ≠ []) :
    distTable dataList hexLen =
      (List.range (16 ^ hexLen)).map
        (fun i => (pyHex hexLen i, dataList.getD (i % dataList.length) defaultItem)) := by
  unfold distTable
  rw [buckets_eq dataList h]
  apply List.map_congr_left
  intro i hi
  rw [List.mem_range] at hi
  rw [getD_map_range _ _ hi]

/-! ### Helper lemmas: Python dict semantics of the fold -/

lemma foldl_dictSet {α : Type} (key val : α → String) (l : List α)
    (m0 : String → Option String) (q : String) :
    (l.foldl (fun m e => dictSet m (key e) (val e)) m0) q =
      match (l.filter (fun e => key e = q)).getLast? with
      | some e => some (val e)
      | none => m0 q := by
  induction l generalizing m0 with
  | nil => rfl
  | cons a t ih =>
    rw [List.foldl_cons, ih]
    by_cases hk : key a = q
    · rw [List.filter_cons_of_pos (by simpa using hk)]
      cases htf : (t.filter (fun e => key e = q)).getLast? with
      | some e =>
        have hne : t.filter (fun e => key e = q) ≠ [] := by
          intro hnil
          rw [hnil] at htf
          cases htf
        obtain ⟨b, u, hbu⟩ := List.exists_cons_of_ne_nil hne
        rw [hbu] at htf ⊢
        rw [List.getLast?_cons_cons, htf]
      | none =>
        rw [List.getLast?_eq_none_iff] at htf
        rw [htf]
        simp [dictSet, hk.symm]
    · rw [List.filter_cons_of_neg (by simpa using hk)]
      cases htf : (t.filter (fun e => key e = q)).getLast? with
      | some e => rfl
      | none =>
        simp only [dictSet]
        rw [if_neg (show ¬ q = key a from fun he => hk he.symm)]

lemma foldl_dictSet_none {α : Type} (key val : α → String) (l : List α) (q : String) :
    (l.foldl (fun m e => dictSet m (key e) (val e)) (fun _ => none)) q =
      ((l.filter (fun e => key e = q)).getLast?).map val := by
  rw [foldl_dictSet]
  cases (l.filter (fun e => key e = q)).getLast? <;> rfl

lemma le_getLast_of_pairwise_lt :
    ∀ (l : List Nat), l.Pairwise (· < ·) → ∀ {m : Nat}, l.getLast? = some m →
      ∀ x ∈ l, x ≤ m := by
  intro l
  induction l with
  | nil =>
    intro _ m hm
    cases hm
  | cons a t ih =>
    intro hl m hm x hx
    cases t with
    | nil =>
      rw [List.mem_singleton] at hx
      subst hx
      cases hm
      exact Nat.le_refl _
    | cons b u =>
      rw [List.getLast?_cons_cons] at hm
      rcases List.mem_cons.mp hx with rfl | hx
      · have hmem : m ∈ b :: u := List.mem_of_getLast?_eq_some hm
        have := (List.pairwise_cons.mp hl).1 m hmem
        omega
      · exact ih (List.pairwise_cons.mp hl).2 hm x hx
/-! ### Helper lemmas: scanning -/

/-- What gen.py's loop contributes to `all_imgs` for one traversal entry. -/
def allSel (f : SourceFile) : Option Item :=
  if f.isImage then some ⟨f.path⟩ else none

/-- What either classification loop contributes to the landscape list for one
traversal entry (`width > height`). -/
def landSel (f : SourceFile) : Option Item :=
  if f.isImage then
    match f.dims with
    | some (w, h) => if h < w then some ⟨f.path⟩ else none
    | none => none
  else none

/-- What either classification loop contributes to the portrait list for one
traversal entry (`width ≤ height`, squares included). -/
def portSel (f : SourceFile) : Option Item :=
  if f.isImage then
    match f.dims with
    | some (w, h) => if h < w then none else some ⟨f.path⟩
    | none => none
  else none

/-- What gen_image.py's loop (with Pillow) contributes to `all_imgs`:
an unreadable file is skipped entirely (`continue`). -/
def allSelImg (f : SourceFile) : Option Item :=
  if f.isImage then
    match f.dims with
    | some _ => some ⟨f.path⟩
    | none => none
  else none

lemma scanLoop_eq (files : List SourceFile) :
    scanLoop files =
      (files.filterMap allSel, files.filterMap landSel, files.filterMap portSel) := by
  induction files with
  | nil => rfl
  | cons f rest ih =>
    simp only [scanLoop, List.filterMap_cons, allSel, landSel, portSel, ih]
    cases himg : f.isImage
    · simp
    · cases hd : f.dims with
      | some wh =>
        obtain ⟨w, h⟩ := wh
        by_cases hwh : h < w
        · simp [hwh, gt_iff_lt]
        · simp [hwh, gt_iff_lt]
      | none => simp

lemma scanLoopImg_eq (files : List SourceFile) :
    scanLoopImg true files =
      (files.filterMap allSelImg, files.filterMap landSel, files.filterMap portSel) := by
  induction files with
  | nil => rfl
  | cons f rest ih =>
    simp only [scanLoopImg, List.filterMap_cons, allSelImg, landSel, portSel, ih]
    cases himg : f.isImage
    · simp
    · cases hd : f.dims with
      | some wh =>
        obtain ⟨w, h⟩ := wh
        by_cases hwh : h < w
        · simp [hwh, gt_iff_lt]
        · simp [hwh, gt_iff_lt]
      | none => simp

lemma landSel_eq_some (f : SourceFile) (p : String) :
    landSel f = some ⟨p⟩ ↔
      f.path = p ∧ f.isImage = true ∧ ∃ w h, f.dims = some (w, h) ∧ h < w := by
  unfold landSel
  cases himg : f.isImage
  · simp
  · cases hd : f.dims with
    | some wh =>
      obtain ⟨w, h⟩ := wh
      by_cases hwh : h < w
      · simp [hwh, Item.mk.injEq]
        intro _
        exact ⟨w, h, ⟨rfl, rfl⟩, hwh⟩
      · simp [hwh, Item.mk.injEq]
        intro _
        omega
    | none => simp

lemma portSel_eq_some (f : SourceFile) (p : String) :
    portSel f = some ⟨p⟩ ↔
      f.path = p ∧ f.isImage = true ∧ ∃ w h, f.dims = some (w, h) ∧ w ≤ h := by
  unfold portSel
  cases himg : f.isImage
  · simp
  · cases hd : f.dims with
    | some wh =>
      obtain ⟨w, h⟩ := wh
      by_cases hwh : h < w
      · simp [hwh, Item.mk.injEq]
      · simp [hwh, Item.mk.injEq]
        intro _
        exact ⟨w, h, ⟨rfl, rfl⟩, by omega⟩
    | none => simp

lemma mem_scanLoop_land (files : List SourceFile) (p : String) :
    (⟨p⟩ : Item) ∈ (scanLoop files).2.1 ↔
      ∃ f ∈ files, f.path = p ∧ f.isImage = true ∧
        ∃ w h, f.dims = some (w, h) ∧ h < w := by
  rw [scanLoop_eq]
  simp only [List.mem_filterMap]
  constructor
  · rintro ⟨f, hf, hsel⟩
    exact ⟨f, hf, (landSel_eq_some f p).mp hsel⟩
  · rintro ⟨f, hf, hc⟩
    exact ⟨f, hf, (landSel_eq_some f p).mpr hc⟩

lemma mem_scanLoop_port (files : List SourceFile) (p : String) :
    (⟨p⟩ : Item) ∈ (scanLoop files).2.2 ↔
      ∃ f ∈ files, f.path = p ∧ f.isImage = true ∧
        ∃ w h, f.dims = some (w, h) ∧ w ≤ h := by
  rw [scanLoop_eq]
  simp only [List.mem_filterMap]
  constructor
  · rintro ⟨f, hf, hsel⟩
    exact ⟨f, hf, (portSel_eq_some f p).mp hsel⟩
  · rintro ⟨f, hf, hc⟩
    exact ⟨f, hf, (portSel_eq_some f p).mpr hc⟩

lemma mem_scanLoopImg_land (files : List SourceFile) (p : String) :
    (⟨p⟩ : Item) ∈ (scanLoopImg true files).2.1 ↔
      ∃ f ∈ files, f.path = p ∧ f.isImage = true ∧
        ∃ w h, f.dims = some (w, h) ∧ h < w := by
  rw [scanLoopImg_eq]
  simp only [List.mem_filterMap]
  constructor
  · rintro ⟨f, hf, hsel⟩
    exact ⟨f, hf, (landSel_eq_some f p).mp hsel⟩
  · rintro ⟨f, hf, hc⟩
    exact ⟨f, hf, (landSel_eq_some f p).mpr hc⟩

lemma mem_scanLoopImg_port (files : List SourceFile) (p : String) :
    (⟨p⟩ : Item) ∈ (scanLoopImg true files).2.2 ↔
      ∃ f ∈ files, f.path = p ∧ f.isImage = true ∧
        ∃ w h, f.dims = some (w, h) ∧ w ≤ h := by
  rw [scanLoopImg_eq]
  simp only [List.mem_filterMap]
  constructor
  · rintro ⟨f, hf, hsel⟩
    exact ⟨f, hf, (portSel_eq_some f p).mp hsel⟩
  · rintro ⟨f, hf, hc⟩
    exact ⟨f, hf, (portSel_eq_some f p).mpr hc⟩

/-! ### Helper lemmas: the writer on a non-empty partition -/

lemma getD_mod_mem (l : List Item) (h : l ≠ []) (i : Nat) :
    l.getD (i % l.length) defaultItem ∈ l := by
  have hn : 0 < l.length := List.length_pos.mpr h
  have hlt : i % l.length < l.length := Nat.mod_lt _ hn
  rw [List.getD_eq_getElem?_getD, List.getElem?_eq_getElem hlt]
  simp only [Option.getD_some]
  exact List.getElem_mem hlt

lemma mem_distTable (dataList : List Item) (hexLen : Nat) (h : dataList ≠ [])
    {e : String × Item} (he : e ∈ distTable dataList hexLen) :
    ∃ i, i < 16 ^ hexLen ∧
      e = (pyHex hexLen i, dataList.getD (i % dataList.length) defaultItem) := by
  rw [distTable_eq _ _ h] at he
  obtain ⟨i, hi, hfe⟩ := List.mem_map.mp he
  exact ⟨i, List.mem_range.mp hi, hfe.symm⟩

lemma write_files_artifacts_length (dataList : List Item) (hexLen : Nat)
    (isSrc : Bool) (sm : Option (String → Option String)) (sOk : Bool)
    (h : dataList ≠ []) :
    (write_files dataList hexLen isSrc sm sOk).artifacts.length = 16 ^ hexLen := by
  unfold write_files
  rw [if_neg h]
  simp [distTable]

lemma primary_artifacts (items : List Item) (hexLen : Nat) (sOk : Bool)
    (h1 : items ≠ []) :
    (write_files items hexLen true none sOk).artifacts
      = (List.range (16 ^ hexLen)).map (fun i =>
          (pyHex hexLen i ++ FILE_EXT,
            ArtifactKind.converted (items.getD (i % items.length) defaultItem))) := by
  unfold write_files
  rw [if_neg h1]
  simp only []
  rw [distTable_eq _ _ h1, List.map_map]
  apply List.map_congr_left
  intro i _
  simp

lemma alias_artifacts (cat : List Item) (hexLen : Nat) (m : String → Option String)
    (sOk : Bool) (h2 : cat ≠ []) (h3 : ∀ it ∈ cat, (m it.path).isSome) :
    ∀ a ∈ (write_files cat hexLen false (some m) sOk).artifacts,
      ∃ it ∈ cat, ∃ tgt, m it.path = some tgt ∧
        a.2 = create_symlink_or_copy sOk tgt a.1 := by
  intro a ha
  unfold write_files at ha
  rw [if_neg h2] at ha
  simp only [] at ha
  rcases List.mem_map.mp ha with ⟨e, he, rfl⟩
  obtain ⟨i, hi, rfl⟩ := mem_distTable cat hexLen h2 he
  have hmem : cat.getD (i % cat.length) defaultItem ∈ cat := getD_mod_mem cat h2 i
  obtain ⟨tgt, htgt⟩ := Option.isSome_iff_exists.mp (h3 _ hmem)
  refine ⟨cat.getD (i % cat.length) defaultItem, hmem, tgt, htgt, ?_⟩
  have hgoal :
      (match m (cat.getD (i % cat.length) defaultItem).path with
        | some real => create_symlink_or_copy sOk real (pyHex hexLen i ++ FILE_EXT)
        | none => ArtifactKind.converted (cat.getD (i % cat.length) defaultItem))
        = create_symlink_or_copy sOk tgt (pyHex hexLen i ++ FILE_EXT) := by
    rw [htgt]
  exact hgoal

lemma primary_map_eq (items : List Item) (hexLen : Nat) (sOk : Bool)
    (h1 : items ≠ []) (q : String) :
    (write_files items hexLen true none sOk).generatedMap q =
      (((List.range (16 ^ hexLen)).filter
          (fun i => (items.getD (i % items.length) defaultItem).path = q)).getLast?).map
        (fun i => pyHex hexLen i ++ FILE_EXT) := by
  have hfold : (write_files items hexLen true none sOk).generatedMap =
      (distTable items hexLen).foldl
        (fun m e => dictSet m e.2.path (e.1 ++ FILE_EXT)) (fun _ => none) := by
    unfold write_files
    rw [if_neg h1]
    rfl
  rw [hfold, distTable_eq _ _ h1, List.foldl_map]
  exact foldl_dictSet_none (fun i => (items.getD (i % items.length) defaultItem).path)
    (fun i => pyHex hexLen i ++ FILE_EXT) (List.range (16 ^ hexLen)) q

lemma path_getD_inj (items : List Item) (hd : (items.map Item.path).Nodup)
    {a b : Nat} (ha : a < items.length) (hb : b < items.length)
    (hp : (items.getD a defaultItem).path = (items.getD b defaultItem).path) :
    a = b := by
  rw [List.getD_eq_getElem?_getD, List.getElem?_eq_getElem ha] at hp
  rw [List.getD_eq_getElem?_getD, List.getElem?_eq_getElem hb] at hp
  simp only [Option.getD_some] at hp
  have helem : items[a] = items[b] :=
    List.inj_on_of_nodup_map hd (List.getElem_mem ha) (List.getElem_mem hb) hp
  have hnd : items.Nodup := List.Nodup.of_map _ hd
  have hfin : (⟨a, ha⟩ : Fin items.length) = ⟨b, hb⟩ :=
    List.nodup_iff_injective_getElem.mp hnd helem
  exact congrArg Fin.val hfin

lemma alias_missing_mem (cat : List Item) (hexLen : Nat) (m : String → Option String)
    (sOk : Bool) (h2 : cat ≠ []) {it : Item} (i : Nat)
    (hi : i < 16 ^ hexLen) (hit : cat.getD (i % cat.length) defaultItem = it)
    (hm : m it.path = none) :
    it ∈ (write_files cat hexLen false (some m) sOk).missingWarnings := by
  have hmw : (write_files cat hexLen false (some m) sOk).missingWarnings
      = (distTable cat hexLen).filterMap (fun e =>
          match m e.2.path with
          | some _ => none
          | none => some e.2) := by
    unfold write_files
    rw [if_neg h2]
    rfl
  rw [hmw, List.mem_filterMap]
  refine ⟨(pyHex hexLen i, it), ?_, ?_⟩
  · rw [distTable_eq _ _ h2]
    exact List.mem_map.mpr ⟨i, List.mem_range.mpr hi, by rw [hit]⟩
  · simp [hm]

lemma alias_fallback_artifact_mem (cat : List Item) (hexLen : Nat)
    (m : String → Option String) (sOk : Bool) (h2 : cat ≠ []) {it : Item} (i : Nat)
    (hi : i < 16 ^ hexLen) (hit : cat.getD (i % cat.length) defaultItem = it)
    (hm : m it.path = none) :
    (pyHex hexLen i ++ FILE_EXT, ArtifactKind.converted it)
      ∈ (write_files cat hexLen false (some m) sOk).artifacts := by
  have hart : (write_files cat hexLen false (some m) sOk).artifacts
      = (distTable cat hexLen).map (fun e =>
          (e.1 ++ FILE_EXT,
            match m e.2.path with
            | some real => create_symlink_or_copy sOk real (e.1 ++ FILE_EXT)
            | none => ArtifactKind.converted e.2)) := by
    unfold write_files
    rw [if_neg h2]
    rfl
  rw [hart]
  apply List.mem_map.mpr
  refine ⟨(pyHex hexLen i, it), ?_, ?_⟩
  · rw [distTable_eq _ _ h2]
    exact List.mem_map.mpr ⟨i, List.mem_range.mpr hi, by rw [hit]⟩
  · simp [hm]

/-! ### The claims -/

/-- C1: for every `key_length ≥ 1` and non-empty item list, the assignment
table realized by the writer loops has exactly `16 ^ key_length` entries;
every address in `[0, 16 ^ key_length)` appears exactly once as a key;
every key is the rendering of such an address; and each rendered key is a
lowercase hexadecimal string of exactly `key_length` digits whose numeric
value is its address (so it is left-zero-padded). -/
theorem C1_coverage (items : List Item) (hexLen : Nat)
    (h1 : 1 ≤ hexLen) (h2 : items ≠ []) :
    (distTable items hexLen).length = 16 ^ hexLen ∧
    (∀ a < 16 ^ hexLen,
      ((distTable items hexLen).map Prod.fst).count (pyHex hexLen a) = 1) ∧
    (∀ key ∈ (distTable items hexLen).map Prod.fst,
      ∃ a < 16 ^ hexLen, key = pyHex hexLen a) ∧
    (∀ a < 16 ^ hexLen,
      (pyHex hexLen a).length = hexLen ∧
      (∀ c ∈ (pyHex hexLen a).data, c ∈ hexAlphabet) ∧
      hexValue (pyHex hexLen a) = a) := by
  have hkeys : (distTable items hexLen).map Prod.fst
      = (List.range (16 ^ hexLen)).map (pyHex hexLen) := by
    unfold distTable
    rw [List.map_map]
    rfl
  refine ⟨?_, ?_, ?_, ?_⟩
  · unfold distTable
    rw [List.length_map, List.length_range]
  · intro a ha
    rw [hkeys]
    have hnodup : ((List.range (16 ^ hexLen)).map (pyHex hexLen)).Nodup := by
      refine List.Nodup.map_on ?_ (List.nodup_range _)
      intro x hx y hy hxy
      rw [List.mem_range] at hx hy
      exact pyHex_inj hx hy hxy
    exact List.count_eq_one_of_mem hnodup
      (List.mem_map.mpr ⟨a, List.mem_range.mpr ha, rfl⟩)
  · intro key hkey
    rw [hkeys] at hkey
    obtain ⟨a, ha, hka⟩ := List.mem_map.mp hkey
    exact ⟨a, List.mem_range.mp ha, hka.symm⟩
  · intro a ha
    exact ⟨pyHex_length hexLen a, hexDigitsFixed_mem_alphabet hexLen a,
      hexValue_pyHex hexLen a ha⟩

/-- Witness for C1 at `key_length = 1` and the three-item sample. -/
theorem C1_coverage_witness :
    (distTable sampleItems 1).length = 16 ^ 1 ∧
    (∀ a < 16 ^ 1,
      ((distTable sampleItems 1).map Prod.fst).count (pyHex 1 a) = 1) ∧
    (∀ key ∈ (distTable sampleItems 1).map Prod.fst,
      ∃ a < 16 ^ 1, key = pyHex 1 a) ∧
    (∀ a < 16 ^ 1,
      (pyHex 1 a).length = 1 ∧
      (∀ c ∈ (pyHex 1 a).data, c ∈ hexAlphabet) ∧
      hexValue (pyHex 1 a) = a) :=
  C1_coverage sampleItems 1 (by norm_num) (by decide)

/-- C2: the item assigned to address `a` is `items[a % n]` (input order
preserved); concretely, with the three-item sample and `key_length = 1` the
sixteen addresses map to the items cyclically, the last address `0xf`
receiving `items[0]`. -/
theorem C2_cyclic (items : List Item) (hexLen a : Nat)
    (h1 : items ≠ []) (h2 : a < 16 ^ hexLen) :
    (distTable items hexLen).getD a ("", defaultItem)
        = (pyHex hexLen a, items.getD (a % items.length) defaultItem) ∧
    (distTable sampleItems 1).map Prod.snd
        = [⟨"A"⟩, ⟨"B"⟩, ⟨"C"⟩, ⟨"A"⟩, ⟨"B"⟩, ⟨"C"⟩, ⟨"A"⟩, ⟨"B"⟩, ⟨"C"⟩,
           ⟨"A"⟩, ⟨"B"⟩, ⟨"C"⟩, ⟨"A"⟩, ⟨"B"⟩, ⟨"C"⟩, ⟨"A"⟩] ∧
    (distTable sampleItems 1).getD 15 ("", defaultItem) = (pyHex 1 15, ⟨"A"⟩) := by
  refine ⟨?_, by decide, by decide⟩
  rw [distTable_eq items hexLen h1]
  exact getD_map_range _ _ h2

/-- Witness for C2 at the sample items, `key_length = 1`, address `0xf`. -/
theorem C2_cyclic_witness :
    (distTable sampleItems 1).getD 15 ("", defaultItem)
        = (pyHex 1 15, sampleItems.getD (15 % sampleItems.length) defaultItem) ∧
    (distTable sampleItems 1).map Prod.snd
        = [⟨"A"⟩, ⟨"B"⟩, ⟨"C"⟩, ⟨"A"⟩, ⟨"B"⟩, ⟨"C"⟩, ⟨"A"⟩, ⟨"B"⟩, ⟨"C"⟩,
           ⟨"A"⟩, ⟨"B"⟩, ⟨"C"⟩, ⟨"A"⟩, ⟨"B"⟩, ⟨"C"⟩, ⟨"A"⟩] ∧
    (distTable sampleItems 1).getD 15 ("", defaultItem) = (pyHex 1 15, ⟨"A"⟩) :=
  C2_cyclic sampleItems 1 15 (by decide) (by norm_num)

/-- C3: in the exact-arithmetic model of the sizer, `calculate_hex_len`
returns `min_len` for count 0 and count 1, and otherwise the smallest
length `≥ min_len` whose capacity covers the count; 20 items at floor 1
yield length 2.  The final conjunct evaluates the model at
`16 ^ 13 + 1` items, where the correct answer is 14 — the source's
floating-point `math.ceil(math.log(n, 16))` returns 13 there, undersizing
the key space (the reported code bug). -/
theorem C3_sizing (n minLen : Nat) (hmin : 1 ≤ minLen) :
    calculate_hex_len 0 minLen = minLen ∧
    (1 ≤ n →
      minLen ≤ calculate_hex_len n minLen ∧
      n ≤ 16 ^ calculate_hex_len n minLen ∧
      (∀ len, minLen ≤ len → n ≤ 16 ^ len → calculate_hex_len n minLen ≤ len)) ∧
    calculate_hex_len 1 minLen = minLen ∧
    calculate_hex_len 20 1 = 2 ∧
    calculate_hex_len (16 ^ 13 + 1) 1 = 14 := by
  have h16 : (1 : Nat) < 16 := by norm_num
  refine ⟨by simp [calculate_hex_len], ?_, ?_, ?_, ?_⟩
  · intro hn
    have hne : n ≠ 0 := by omega
    unfold calculate_hex_len
    rw [if_neg hne]
    refine ⟨le_max_left _ _, ?_, ?_⟩
    · calc n ≤ 16 ^ Nat.clog 16 n := (Nat.le_pow_iff_clog_le h16).mpr le_rfl
      _ ≤ 16 ^ max minLen (Nat.clog 16 n) :=
          Nat.pow_le_pow_right (by norm_num) (le_max_right _ _)
    · intro len hl1 hl2
      exact max_le hl1 ((Nat.le_pow_iff_clog_le h16).mp hl2)
  · simp [calculate_hex_len, Nat.clog_one_right]
  · have hle : Nat.clog 16 20 ≤ 2 := (Nat.le_pow_iff_clog_le h16).mp (by norm_num)
    have hgt : 1 < Nat.clog 16 20 := (Nat.pow_lt_iff_lt_clog h16).mp (by norm_num)
    unfold calculate_hex_len
    rw [if_neg (by norm_num)]
    omega
  · have hle : Nat.clog 16 (16 ^ 13 + 1) ≤ 14 :=
      (Nat.le_pow_iff_clog_le h16).mp (by norm_num)
    have hgt : 13 < Nat.clog 16 (16 ^ 13 + 1) :=
      (Nat.pow_lt_iff_lt_clog h16).mp (by norm_num)
    unfold calculate_hex_len
    rw [if_neg (by positivity)]
    omega

/-- Witness for C3 at `n = 20`, `min_len = 1`. -/
theorem C3_sizing_witness :
    calculate_hex_len 0 1 = 1 ∧
    (1 ≤ 20 →
      1 ≤ calculate_hex_len 20 1 ∧
      20 ≤ 16 ^ calculate_hex_len 20 1 ∧
      (∀ len, 1 ≤ len → 20 ≤ 16 ^ len → calculate_hex_len 20 1 ≤ len)) ∧
    calculate_hex_len 1 1 = 1 ∧
    calculate_hex_len 20 1 = 2 ∧
    calculate_hex_len (16 ^ 13 + 1) 1 = 14 :=
  C3_sizing 20 1 (by norm_num)

/-- C6 counterexample: gen.py's writer creates the category output directory
before it checks for an empty partition, so a zero-item category does
produce an output directory, contradicting the claim that none is
produced. -/
theorem C6_counterexample :
    (write_files [] 2 false (some (fun _ => none)) true).dirCreated = true := rfl

/-- C6 amended: a zero-item partition writes no files, records no index
entries and raises no error (gen.py prints a warning and returns the empty
dict) — but gen.py still creates the (empty) category output directory,
while gen_image.py's subdirectory writer returns before creating
anything. -/
theorem C6_empty_partition (hexLen : Nat) (isSrc sOk : Bool)
    (m : Option (String → Option String)) :
    (write_files [] hexLen isSrc m sOk).dirCreated = true ∧
    (write_files [] hexLen isSrc m sOk).emptyWarning = true ∧
    (write_files [] hexLen isSrc m sOk).artifacts = [] ∧
    (write_files [] hexLen isSrc m sOk).missingWarnings = [] ∧
    (∀ q, (write_files [] hexLen isSrc m sOk).generatedMap q = none) ∧
    write_files_sub [] hexLen = none :=
  ⟨rfl, rfl, rfl, rfl, fun _ => rfl, rfl⟩

/-- C7: a missing source root, or a scan that yields zero items, is fatal:
`main` exits with status 1 and no partition is distributed. -/
theorem C7_fatal (sourceExists : Bool) (files : List SourceFile) (symlinkOk : Bool)
    (h : sourceExists = false ∨ (scan_images sourceExists files).1 = []) :
    mainRun sourceExists files symlinkOk = RunOutcome.fatal 1 := by
  unfold mainRun
  rcases h with h | h
  · subst h
    simp [scan_images]
  · simp [h]

/-- Witness for C7: nonexistent source root. -/
theorem C7_fatal_witness : mainRun false [] true = RunOutcome.fatal 1 :=
  C7_fatal false [] true (Or.inl rfl)

/-- C9: when symbolic-link creation is unsupported or denied, the alias
artifact is produced as a full byte copy of the primary artifact, the run
continues, and the partition is still fully materialized (all
`16 ^ key_length` slots written, each a copy of the mapped primary
path). -/
theorem C9_copy_fallback (cat : List Item) (hexLen : Nat)
    (m : String → Option String) (target link : String)
    (h2 : cat ≠ []) (h3 : ∀ it ∈ cat, (m it.path).isSome) :
    create_symlink_or_copy false target link = ArtifactKind.copied target ∧
    (write_files cat hexLen false (some m) false).artifacts.length = 16 ^ hexLen ∧
    ∀ a ∈ (write_files cat hexLen false (some m) false).artifacts,
      ∃ it ∈ cat, ∃ tgt, m it.path = some tgt ∧ a.2 = ArtifactKind.copied tgt := by
  refine ⟨rfl, write_files_artifacts_length cat hexLen false (some m) false h2, ?_⟩
  intro a ha
  obtain ⟨it, hit, tgt, htgt, hkind⟩ := alias_artifacts cat hexLen m false h2 h3 a ha
  exact ⟨it, hit, tgt, htgt, hkind⟩

/-- C4 counterexample: with a single item and `key_length = 1` the item's
smallest assigned address is `0x0` (artifact `0.webp`), yet the returned
primary index maps the item to `f.webp` — the artifact of the largest
assigned address — because every later slot of the loop overwrites the
dict entry.  The index therefore does not record the first primary
artifact, refuting the claim at this input. -/
theorem C4_counterexample :
    (write_files [⟨"a"⟩] 1 true none true).generatedMap "a" = some "f.webp" ∧
    some "f.webp" ≠ some "0.webp" := by
  refine ⟨by decide, by decide⟩

/-- C4 amended: the primary index maps each item (with at least one
assigned address) to the artifact path of the largest address assigned to
it, because the loop overwrites the dict entry at every later slot; all
such paths hold byte-identical content, so the overwrite is harmless. -/
theorem C4_last_write (items : List Item) (hexLen j : Nat) (sOk : Bool)
    (h1 : items ≠ []) (hd : (items.map Item.path).Nodup)
    (hj : j < items.length) (hjc : j < 16 ^ hexLen) :
    ∃ i, i < 16 ^ hexLen ∧ i % items.length = j ∧
      (∀ i2, i2 < 16 ^ hexLen → i2 % items.length = j → i2 ≤ i) ∧
      (write_files items hexLen true none sOk).generatedMap
          (items.getD j defaultItem).path
        = some (pyHex hexLen i ++ FILE_EXT) := by
  have hn : 0 < items.length := List.length_pos.mpr h1
  have hfeq : (List.range (16 ^ hexLen)).filter
        (fun i => (items.getD (i % items.length) defaultItem).path
          = (items.getD j defaultItem).path)
      = (List.range (16 ^ hexLen)).filter (fun i => i % items.length = j) := by
    apply List.filter_congr
    intro i hi
    rw [List.mem_range] at hi
    apply decide_eq_decide.mpr
    constructor
    · exact fun hpath => path_getD_inj items hd (Nat.mod_lt _ hn) hj hpath
    · intro hmod
      rw [hmod]
  have hjS : j ∈ (List.range (16 ^ hexLen)).filter (fun i => i % items.length = j) := by
    rw [List.mem_filter]
    refine ⟨List.mem_range.mpr hjc, ?_⟩
    simp [Nat.mod_eq_of_lt hj]
  have hpair : ((List.range (16 ^ hexLen)).filter
      (fun i => i % items.length = j)).Pairwise (· < ·) :=
    (List.pairwise_lt_range _).filter _
  cases hgl : ((List.range (16 ^ hexLen)).filter
      (fun i => i % items.length = j)).getLast? with
  | none =>
    rw [List.getLast?_eq_none_iff] at hgl
    rw [hgl] at hjS
    cases hjS
  | some iMax =>
    have hiS := List.mem_of_getLast?_eq_some hgl
    rw [List.mem_filter, List.mem_range] at hiS
    have hmod : iMax % items.length = j := by
      have h2 := hiS.2
      simpa using h2
    refine ⟨iMax, hiS.1, hmod, ?_, ?_⟩
    · intro i2 h2c h2m
      refine le_getLast_of_pairwise_lt _ hpair hgl i2 ?_
      rw [List.mem_filter]
      refine ⟨List.mem_range.mpr h2c, ?_⟩
      simp [h2m]
    · rw [primary_map_eq items hexLen sOk h1, hfeq, hgl]
      rfl

/-- Witness for C4's amended statement: three items, `key_length = 1`,
item index 1 (the largest address with residue 1 mod 3 is `0xd`). -/
theorem C4_last_write_witness :
    ∃ i, i < 16 ^ 1 ∧ i % sampleItems.length = 1 ∧
      (∀ i2, i2 < 16 ^ 1 → i2 % sampleItems.length = 1 → i2 ≤ i) ∧
      (write_files sampleItems 1 true none true).generatedMap
          (sampleItems.getD 1 defaultItem).path
        = some (pyHex 1 i ++ FILE_EXT) :=
  C4_last_write sampleItems 1 1 true (by decide) (by decide) (by decide) (by norm_num)

/-- C5 counterexample: one item, `key_length = 1`, present in both the
primary partition and a category partition.  The primary partition
materializes sixteen byte-owning artifacts for the item — one per assigned
address — not exactly one; the sixteen category slots are all symlinks to
the single indexed path `f.webp`. -/
theorem C5_counterexample :
    ((write_files [⟨"a"⟩] 1 true none true).artifacts.countP
        (fun a => a.2 == ArtifactKind.converted ⟨"a"⟩)) = 16 ∧
    ((write_files [⟨"a"⟩] 1 false
        (some ((write_files [⟨"a"⟩] 1 true none true).generatedMap)) true).artifacts.countP
        (fun a => a.2 == ArtifactKind.symlink "f.webp")) = 16 ∧
    (16 : Nat) ≠ 1 := by
  refine ⟨by decide, by decide, by decide⟩

/-- C5 amended: the primary partition owns one byte-owning artifact per
assigned address (an item assigned k addresses has k byte-identical
primary artifacts, the index designating one canonical path among them);
in gen.py with working symlinks, every occurrence of an item in a category
partition is an alias resolving to the indexed primary path rather than an
independent byte copy. -/
theorem C5_byte_ownership (items cat : List Item) (hexLen : Nat)
    (m : String → Option String) (sOk : Bool)
    (h1 : items ≠ []) (h2 : cat ≠ []) (h3 : ∀ it ∈ cat, (m it.path).isSome) :
    (write_files items hexLen true none sOk).artifacts
      = (List.range (16 ^ hexLen)).map (fun i =>
          (pyHex hexLen i ++ FILE_EXT,
            ArtifactKind.converted (items.getD (i % items.length) defaultItem))) ∧
    ∀ a ∈ (write_files cat hexLen false (some m) true).artifacts,
      ∃ it ∈ cat, ∃ tgt, m it.path = some tgt ∧ a.2 = ArtifactKind.symlink tgt := by
  refine ⟨primary_artifacts items hexLen sOk h1, ?_⟩
  intro a ha
  obtain ⟨it, hit, tgt, htgt, hkind⟩ := alias_artifacts cat hexLen m true h2 h3 a ha
  exact ⟨it, hit, tgt, htgt, hkind⟩

/-- Witness for C5's amended statement with one item aliased to its
indexed primary path. -/
theorem C5_byte_ownership_witness :
    (write_files [(⟨"a"⟩ : Item)] 1 true none true).artifacts
      = (List.range (16 ^ 1)).map (fun i =>
          (pyHex 1 i ++ FILE_EXT,
            ArtifactKind.converted
              (([(⟨"a"⟩ : Item)]).getD (i % ([(⟨"a"⟩ : Item)]).length) defaultItem))) ∧
    ∀ a ∈ (write_files [(⟨"a"⟩ : Item)] 1 false
        (some (fun _ => some "f.webp")) true).artifacts,
      ∃ it ∈ [(⟨"a"⟩ : Item)], ∃ tgt, (fun _ => some "f.webp") it.path = some tgt ∧
        a.2 = ArtifactKind.symlink tgt :=
  C5_byte_ownership [⟨"a"⟩] [⟨"a"⟩] 1 (fun _ => some "f.webp") true
    (by decide) (by decide) (by intro it _; rfl)

/-- C8 is violated by the program because of the sizer's floating-point
defect: at `16 ^ 13 + 1` items the source computes `hex_len = 13`
(`math.ceil(math.log(16 ** 13 + 1, 16))` evaluates to `13` in IEEE double
arithmetic), so the primary partition covers only `16 ^ 13` addresses.
This theorem shows that, with that key length, the last of the
`16 ^ 13 + 1` items receives no primary-index entry, and a category
containing it drives the writer into the defensive fallback branch — a
"not found in all map" warning plus direct conversion — which the claim
calls unreachable. -/
theorem C8_fallback_reached :
    (write_files bigItems 13 true none true).generatedMap lastBig.path = none ∧
    (write_files [lastBig] 13 false
        (some ((write_files bigItems 13 true none true).generatedMap)) true).missingWarnings
      ≠ [] ∧
    ∃ a ∈ (write_files [lastBig] 13 false
        (some ((write_files bigItems 13 true none true).generatedMap)) true).artifacts,
      a.2 = ArtifactKind.converted lastBig := by
  have hlen : bigItems.length = 16 ^ 13 + 1 := by
    unfold bigItems
    rw [List.length_map, List.length_range]
  have hne : bigItems ≠ [] := by
    intro hnil
    rw [hnil] at hlen
    exact (Nat.succ_ne_zero _) hlen.symm
  have hnone : (write_files bigItems 13 true none true).generatedMap lastBig.path = none := by
    rw [primary_map_eq bigItems 13 true hne]
    have hfilter : (List.range (16 ^ 13)).filter
        (fun i => (bigItems.getD (i % bigItems.length) defaultItem).path = lastBig.path)
        = [] := by
      rw [List.filter_eq_nil_iff]
      intro i hi
      rw [List.mem_range] at hi
      simp only [decide_eq_true_eq]
      intro hpath
      have hmodi : i % bigItems.length = i := by
        rw [hlen]
        exact Nat.mod_eq_of_lt (by omega)
      have hgd : bigItems.getD i defaultItem = ⟨pyHex 14 i⟩ := by
        unfold bigItems
        exact getD_map_range _ _ (by omega)
      rw [hmodi, hgd] at hpath
      have hi14 : i < 16 ^ 14 := lt_trans hi (by norm_num)
      have hb14 : (16 : Nat) ^ 13 < 16 ^ 14 := by norm_num
      have hieq : i = 16 ^ 13 := pyHex_inj hi14 hb14 hpath
      omega
    rw [hfilter]
    rfl
  refine ⟨hnone, ?_, ?_⟩
  · apply List.ne_nil_of_mem
    exact alias_missing_mem [lastBig] 13
      ((write_files bigItems 13 true none true).generatedMap) true (by simp)
      0 (by positivity)
      (show ([lastBig] : List Item).getD (0 % ([lastBig] : List Item).length) defaultItem
        = lastBig from rfl)
      hnone
  · exact ⟨(pyHex 13 0 ++ FILE_EXT, ArtifactKind.converted lastBig),
      alias_fallback_artifact_mem [lastBig] 13
        ((write_files bigItems 13 true none true).generatedMap) true (by simp)
        0 (by positivity)
        (show ([lastBig] : List Item).getD (0 % ([lastBig] : List Item).length) defaultItem
          = lastBig from rfl)
        hnone, rfl⟩

/-- C10: in both scanners (when classification runs, i.e. dimensions are
available), an image goes to the landscape partition iff its width is
strictly greater than its height, and to the portrait partition iff
width ≤ height — so a square image lands in portrait and not landscape,
and no image is in both orientation partitions. -/
theorem C10_orientation (files : List SourceFile) (f : SourceFile) (w h : Nat)
    (hnd : (files.map SourceFile.path).Nodup)
    (hf : f ∈ files) (himg : f.isImage = true) (hdims : f.dims = some (w, h)) :
    ((⟨f.path⟩ : Item) ∈ (scan_images true files).2.1 ↔ h < w) ∧
    ((⟨f.path⟩ : Item) ∈ (scan_images true files).2.2 ↔ w ≤ h) ∧
    ¬((⟨f.path⟩ : Item) ∈ (scan_images true files).2.1 ∧
      (⟨f.path⟩ : Item) ∈ (scan_images true files).2.2) ∧
    (w = h → (⟨f.path⟩ : Item) ∈ (scan_images true files).2.2 ∧
      (⟨f.path⟩ : Item) ∉ (scan_images true files).2.1) ∧
    ((⟨f.path⟩ : Item) ∈ (scan_images_img true true files).2.1 ↔ h < w) ∧
    ((⟨f.path⟩ : Item) ∈ (scan_images_img true true files).2.2 ↔ w ≤ h) := by
  have hland : (⟨f.path⟩ : Item) ∈ (scanLoop files).2.1 ↔ h < w := by
    rw [mem_scanLoop_land]
    constructor
    · rintro ⟨g, hg, hgp, hgi, w2, h2, hgd, hwh⟩
      have hgf : g = f := List.inj_on_of_nodup_map hnd hg hf hgp
      subst hgf
      rw [hdims] at hgd
      have hwpair : w = w2 ∧ h = h2 := by simpa using hgd
      obtain ⟨rfl, rfl⟩ := hwpair
      exact hwh
    · intro hwh
      exact ⟨f, hf, rfl, himg, w, h, hdims, hwh⟩
  have hport : (⟨f.path⟩ : Item) ∈ (scanLoop files).2.2 ↔ w ≤ h := by
    rw [mem_scanLoop_port]
    constructor
    · rintro ⟨g, hg, hgp, hgi, w2, h2, hgd, hwh⟩
      have hgf : g = f := List.inj_on_of_nodup_map hnd hg hf hgp
      subst hgf
      rw [hdims] at hgd
      have hwpair : w = w2 ∧ h = h2 := by simpa using hgd
      obtain ⟨rfl, rfl⟩ := hwpair
      exact hwh
    · intro hwh
      exact ⟨f, hf, rfl, himg, w, h, hdims, hwh⟩
  have hlandI : (⟨f.path⟩ : Item) ∈ (scanLoopImg true files).2.1 ↔ h < w := by
    rw [mem_scanLoopImg_land]
    constructor
    · rintro ⟨g, hg, hgp, hgi, w2, h2, hgd, hwh⟩
      have hgf : g = f := List.inj_on_of_nodup_map hnd hg hf hgp
      subst hgf
      rw [hdims] at hgd
      have hwpair : w = w2 ∧ h = h2 := by simpa using hgd
      obtain ⟨rfl, rfl⟩ := hwpair
      exact hwh
    · intro hwh
      exact ⟨f, hf, rfl, himg, w, h, hdims, hwh⟩
  have hportI : (⟨f.path⟩ : Item) ∈ (scanLoopImg true files).2.2 ↔ w ≤ h := by
    rw [mem_scanLoopImg_port]
    constructor
    · rintro ⟨g, hg, hgp, hgi, w2, h2, hgd, hwh⟩
      have hgf : g = f := List.inj_on_of_nodup_map hnd hg hf hgp
      subst hgf
      rw [hdims] at hgd
      have hwpair : w = w2 ∧ h = h2 := by simpa using hgd
      obtain ⟨rfl, rfl⟩ := hwpair
      exact hwh
    · intro hwh
      exact ⟨f, hf, rfl, himg, w, h, hdims, hwh⟩
  refine ⟨hland, hport, ?_, ?_, hlandI, hportI⟩
  · rintro ⟨hl, hp⟩
    have h1 := hland.mp hl
    have h2 := hport.mp hp
    omega
  · intro hwh
    refine ⟨hport.mpr (by omega), fun hc => ?_⟩
    have := hland.mp hc
    omega

/-- Witness for C10: a single square image. -/
theorem C10_orientation_witness :
    ((⟨"sq.png"⟩ : Item) ∈ (scan_images true [⟨"sq.png", true, some (3, 3)⟩]).2.1 ↔ 3 < 3) ∧
    ((⟨"sq.png"⟩ : Item) ∈ (scan_images true [⟨"sq.png", true, some (3, 3)⟩]).2.2 ↔ 3 ≤ 3) ∧
    ¬((⟨"sq.png"⟩ : Item) ∈ (scan_images true [⟨"sq.png", true, some (3, 3)⟩]).2.1 ∧
      (⟨"sq.png"⟩ : Item) ∈ (scan_images true [⟨"sq.png", true, some (3, 3)⟩]).2.2) ∧
    (3 = 3 → (⟨"sq.png"⟩ : Item) ∈ (scan_images true [⟨"sq.png", true, some (3, 3)⟩]).2.2 ∧
      (⟨"sq.png"⟩ : Item) ∉ (scan_images true [⟨"sq.png", true, some (3, 3)⟩]).2.1) ∧
    ((⟨"sq.png"⟩ : Item) ∈ (scan_images_img true true [⟨"sq.png", true, some (3, 3)⟩]).2.1
      ↔ 3 < 3) ∧
    ((⟨"sq.png"⟩ : Item) ∈ (scan_images_img true true [⟨"sq.png", true, some (3, 3)⟩]).2.2
      ↔ 3 ≤ 3) :=
  C10_orientation [⟨"sq.png", true, some (3, 3)⟩] ⟨"sq.png", true, some (3, 3)⟩ 3 3
    (by decide) (by decide) rfl rfl

/-- Witness for C9 with one item whose primary path is mapped. -/
theorem C9_copy_fallback_witness :
    create_symlink_or_copy false "all/0.webp" "l/0.webp" = ArtifactKind.copied "all/0.webp" ∧
    (write_files [⟨"a"⟩] 1 false (some (fun _ => some "all/0.webp")) false).artifacts.length
        = 16 ^ 1 ∧
    ∀ a ∈ (write_files [⟨"a"⟩] 1 false (some (fun _ => some "all/0.webp")) false).artifacts,
      ∃ it ∈ [(⟨"a"⟩ : Item)], ∃ tgt, (fun _ => some "all/0.webp") it.path = some tgt ∧
        a.2 = ArtifactKind.copied tgt :=
  C9_copy_fallback [⟨"a"⟩] 1 (fun _ => some "all/0.webp") "all/0.webp" "l/0.webp"
    (by decide) (by intro it _; rfl)

end CFRI
